import Mathlib

/-!
Verification of the FTP client core in `src/lib/ftp.js` (class `Client` and the
free functions `connect`, `send`, `parseIPV4PasvResponse`, ...).

All strings are modelled as `List Char`.  JavaScript numbers that can be `NaN`
(such as the result of `parseInt`) are modelled as `Option Int`, with `none`
standing for `NaN`/`undefined`.  The client object is modelled as a state
machine: a state `St` plus a `step` function consuming the externally visible
events (method calls by the user and events fired by the sockets).
-/

namespace BasicFtp

/-! ## JavaScript string and number primitives -/

/-- Whitespace as removed by JS `String.prototype.trim` and skipped by
`parseInt` (ASCII range; FTP traffic is ASCII). -/
def isWS (c : Char) : Bool :=
  c == ' ' || c == '\t' || c == '\n' || c == '\r' || c == '\x0b' || c == '\x0c'

/-- Decimal digit test. -/
def isDigitChar (c : Char) : Bool :=
  48 ≤ c.toNat && c.toNat ≤ 57

/-- Numeric value of a digit character. -/
def digitVal (c : Char) : Nat := c.toNat - 48

/-- Value of a decimal digit string. -/
def digitsVal (l : List Char) : Nat :=
  l.foldl (fun a c => 10 * a + digitVal c) 0

/-- The decimal digit character for a value `< 10`. -/
def digitChar : Nat → Char
  | 0 => '0' | 1 => '1' | 2 => '2' | 3 => '3' | 4 => '4'
  | 5 => '5' | 6 => '6' | 7 => '7' | 8 => '8' | _ => '9'

/-- Decimal rendering, fuel-driven so that it is structurally recursive (the
fuel `n + 1` always suffices since `n / 10 < n`). -/
def natDecGo (fuel n : Nat) : List Char :=
  match fuel with
  | 0 => []
  | fuel + 1 =>
    if n < 10 then [digitChar n]
    else natDecGo fuel (n / 10) ++ [digitChar (n % 10)]

/-- Decimal rendering of a natural number (as JS number-to-string for
integers). -/
def natDec (n : Nat) : List Char := natDecGo (n + 1) n

/-- JS `String.prototype.trim`: drop whitespace from both ends. -/
def jsTrim (l : List Char) : List Char :=
  ((l.dropWhile isWS).reverse.dropWhile isWS).reverse

/-- Test that `pat` is a prefix of `hay`, used to model `String.prototype.indexOf`. -/
def startsWith' : List Char → List Char → Bool
  | _, [] => true
  | [], _ :: _ => false
  | c :: h, d :: p => c == d && startsWith' h p

/-- Model of `hay.indexOf(pat) !== -1`: some suffix of `hay` starts with `pat`. -/
def containsSub : List Char → List Char → Bool
  | [], pat => startsWith' [] pat
  | c :: t, pat => startsWith' (c :: t) pat || containsSub t pat

/-- The longest leading run of decimal digits, as a number; `none` if there is
no leading digit (JS `parseInt` then yields `NaN`). -/
def parseLeadingDigits (l : List Char) : Option Nat :=
  let ds := l.takeWhile isDigitChar
  if ds.isEmpty then none else some (digitsVal ds)

/-- JS `parseInt(s, 10)`: skip leading whitespace, optional sign, then the
longest digit prefix; `NaN` (here `none`) if no digits follow. -/
def jsParseInt (l : List Char) : Option Int :=
  match l.dropWhile isWS with
  | [] => none
  | c :: rest =>
    if c == '-' then (parseLeadingDigits rest).map (fun n => -(n : Int))
    else if c == '+' then (parseLeadingDigits rest).map (fun n => (n : Int))
    else (parseLeadingDigits (c :: rest)).map (fun n => (n : Int))

/-! ## The PASV response parser (`parseIPV4PasvResponse`, ftp.js lines 281-300)

The regex `/([-\d]+,[-\d]+,[-\d]+,[-\d]+),([-\d]+),([-\d]+)/` is embedded
directly.  Because the character class `[-\d]` excludes `','`, each greedy
`[-\d]+` is forced to the maximal run and no backtracking into a shorter run
can ever succeed, so matching at a fixed start position is deterministic; the
JS engine returns the match at the leftmost start position where the whole
pattern succeeds.  On a successful match the array has exactly the full match
plus the three capture groups, so the source's `groups.length !== 4` guard
never fires on a match. -/

/-- Characters matched by the class `[-\d]`. -/
def isPasvChar (c : Char) : Bool := c == '-' || isDigitChar c

/-- Match a (maximal, nonempty) `[-\d]+` run followed by a literal comma. -/
def matchRunComma (l : List Char) : Option (List Char × List Char) :=
  let r := l.takeWhile isPasvChar
  if r.isEmpty then none
  else
    match l.dropWhile isPasvChar with
    | ',' :: rest => some (r, rest)
    | _ => none

/-- Match a (maximal, nonempty) final `[-\d]+` run. -/
def matchRunEnd (l : List Char) : Option (List Char) :=
  let r := l.takeWhile isPasvChar
  if r.isEmpty then none else some r

/-- Match the whole PASV regex at this start position, returning the three
capture groups. -/
def matchPasvAt (l : List Char) : Option (List Char × List Char × List Char) :=
  match matchRunComma l with
  | none => none
  | some (r1, l1) =>
    match matchRunComma l1 with
    | none => none
    | some (r2, l2) =>
      match matchRunComma l2 with
      | none => none
      | some (r3, l3) =>
        match matchRunComma l3 with
        | none => none
        | some (r4, l4) =>
          match matchRunComma l4 with
          | none => none
          | some (r5, l5) =>
            match matchRunEnd l5 with
            | none => none
            | some r6 =>
              some (r1 ++ ',' :: r2 ++ ',' :: r3 ++ ',' :: r4, r5, r6)

/-- Leftmost match of the PASV regex (JS `message.match(regexPasv)`). -/
def findPasv : List Char → Option (List Char × List Char × List Char)
  | [] => none
  | c :: rest =>
    match matchPasvAt (c :: rest) with
    | some g => some g
    | none => findPasv rest

/-- JS `x & 255` applied to a `parseInt` result: `ToInt32` keeps the low 32
bits of the (possibly negative) value in two's complement, and masking with
255 keeps the low 8, which is the value mod 256; `NaN & 255` is `0`.  (For
magnitudes at or beyond 2^53 a JS number is an approximation of the parsed
integer; the range facts proved here hold either way.) -/
def jsAnd255 (x : Option Int) : Nat :=
  match x with
  | none => 0
  | some z => (z % 256).toNat

/-- Model of `groups[1].replace(/,/g, ".")`. -/
def dotHost (l : List Char) : List Char :=
  l.map (fun c => if c == ',' then '.' else c)

/-- The function `parseIPV4PasvResponse` (ftp.js lines 289-300): extract host and port from
a 227 message. -/
def parseIPV4PasvResponse (message : List Char) : Option (List Char × Nat) :=
  match findPasv message with
  | none => none
  | some (g1, g2, g3) =>
    some (dotHost g1, jsAnd255 (jsParseInt g2) * 256 + jsAnd255 (jsParseInt g3))

/-- The fixed text of a 227 reply before the address tuple. -/
def pasvIntro : List Char := "227 Entering Passive Mode (".data

/-- Format a 227 message for host `a.b.c.d` and port `p`, with the payload
`(a,b,c,d,p>>8,p&0xFF)` as in the round-trip claim. -/
def fmtPasv (a b c d p : Nat) : List Char :=
  pasvIntro ++ natDec a ++ ',' :: natDec b ++ ',' :: natDec c ++ ',' :: natDec d ++
    ',' :: natDec (p / 256) ++ ',' :: natDec (p % 256) ++ [')']

/-- The dotted quad `a.b.c.d`. -/
def hostQuad (a b c d : Nat) : List Char :=
  natDec a ++ '.' :: natDec b ++ '.' :: natDec c ++ '.' :: natDec d

/-! ## The client state machine (`class Client`, ftp.js lines 10-135)

The mutable fields of a `Client` instance, plus observation history needed to
state the claims (settled promises, destroy calls, payloads written to the log
sink and to the control socket), form the state `St`.  External events are the
public method calls and the wired socket events: the control socket's `data`,
`error` and `timeout` listeners and the data socket's `error` and `timeout`
listeners all funnel into `_respond` (lines 46-51 and 124-125). -/

/-- A non-response error payload delivered to `_respond`: the socket `error`
event, or the literal `"Timeout"` from the `timeout` listener. -/
inductive SockErr
  | timeout
  | transport (msg : List Char)
  deriving DecidableEq

/-- The payload object given to a handler: `{code, message}` for control-socket
data (line 50) or `{error}` for socket errors (lines 124-125).  Absent fields
are `none`; a `none` code also stands for `NaN`. -/
structure Payload where
  code : Option Int := none
  message : Option (List Char) := none
  error : Option SockErr := none
  deriving DecidableEq

/-- Values a task can be resolved with: `unit` models `resolve()` with no
argument (the promise gets `undefined`), `codeV` models `resolve(res.code)`.
`respV` (resolving with the whole response) is what the spec expects of
`connect`; the code never produces it, it exists so that can be stated. -/
inductive RVal
  | unit
  | codeV (c : Option Int)
  | respV (r : Payload)
  deriving DecidableEq

/-- Values a task can be rejected with.  The code only ever rejects with the
payload object (or a string, in `enterPassiveMode`).  `busy` and `closed` are
the spec's `Busy`/`Closed` errors; the code never constructs them, they exist
so that their absence can be stated. -/
inductive RErr
  | payload (p : Payload)
  | strE (s : List Char)
  | busy
  | closed
  deriving DecidableEq

/-- How a settled promise settled. -/
inductive Outcome
  | ok (v : RVal)
  | err (e : RErr)
  deriving DecidableEq

/-- What a handler invocation does with the `(payload, task)` pair: nothing
yet, `task.resolve(v)`, or `task.reject(e)`. -/
inductive Decision
  | keep
  | resolve (v : RVal)
  | reject (e : RErr)

/-- A task handler (the second argument of `Client.handle`). -/
def Handler := Payload → Decision

/-- The current task slot `_task`: the id of the promise it settles and
whether its `resolve`/`reject` has run.  The code never clears `_task`; after
settling, the stale record stays with `settled = true`. -/
structure TaskRec where
  id : Nat
  settled : Bool
  deriving DecidableEq

/-- The client state.  `nextId` numbers the promises created by `handle`;
`results` records settled promises in order; `ctrlDestroy`/`dataDestroy` count
`destroy()` calls on each socket; `ctrlTimeoutSet`/`dataTimeoutSet` record the
most recent `setTimeout` applied to each socket; `sentCmds` the bytes written
to the control socket; `logged` the messages given to `log`. -/
structure St where
  timeoutMillis : Nat
  nextId : Nat
  handler : Option Handler
  task : Option TaskRec
  results : List (Nat × Outcome)
  hasData : Bool
  ctrlDestroy : Nat
  dataDestroy : Nat
  ctrlTimeoutSet : Option Nat
  dataTimeoutSet : Option Nat
  sentCmds : List (List Char)
  logged : List (List Char)

/-- Literal `"PASS"`. -/
def passLit : List Char := "PASS".data

/-- The redacted log line `"> PASS ###"` (line 75). -/
def redactedLit : List Char := "> PASS ###".data

/-- The `close` log line (line 33). -/
def closingLit : List Char := "Closing sockets.".data

/-- The log line of `Client.send` (lines 73-76): redacted whenever the command
contains `"PASS"`, otherwise `"> " + command`. -/
def sendLog (command : List Char) : List Char :=
  if containsSub command passLit then redactedLit else '>' :: ' ' :: command

/-- Model of `Client.send` (lines 73-78): log, then write the command plus CRLF on the
control socket. -/
def doSend (st : St) (command : List Char) : St :=
  { st with logged := st.logged ++ [sendLog command]
            sentCmds := st.sentCmds ++ [command ++ ['\r', '\n']] }

/-- Model of `Client._respond` (lines 110-114): if a handler is installed, invoke it
with the payload and the current task.  `task.resolve`/`task.reject` (lines
89-96) clear `_handler` and settle the promise of the current task; `_task`
itself is not cleared. -/
def respond (st : St) (p : Payload) : St :=
  match st.handler with
  | none => st
  | some h =>
    match h p with
    | .keep => st
    | .resolve v =>
      { st with handler := none
                task := st.task.map (fun t => { t with settled := true })
                results := st.results ++
                  (match st.task with
                   | some t => [(t.id, Outcome.ok v)]
                   | none => []) }
    | .reject e =>
      { st with handler := none
                task := st.task.map (fun t => { t with settled := true })
                results := st.results ++
                  (match st.task with
                   | some t => [(t.id, Outcome.err e)]
                   | none => []) }

/-- The payload produced by the control socket's `data` listener (lines 46-50):
`message = data.toString().trim()`, `code = parseInt(message.substr(0, 3), 10)`. -/
def chunkToPayload (chunk : List Char) : Payload :=
  { code := jsParseInt ((jsTrim chunk).take 3)
    message := some (jsTrim chunk)
    error := none }

/-- The responses `_respond` receives when the control socket delivers the
given data chunks: one per chunk, no buffering. -/
def emitResponses (chunks : List (List Char)) : List Payload :=
  chunks.map chunkToPayload

/-- External events: the user-facing calls `handle` (with its optional
command) and `close`, the wired socket events, and the installation of a data
socket (the `dataSocket` setter, used by `enterPassiveMode`). -/
inductive Ev
  | handle (cmd : Option (List Char)) (h : Handler)
  | close
  | ctrlData (chunk : List Char)
  | ctrlError (msg : List Char)
  | ctrlTimeout
  | dataError (msg : List Char)
  | dataTimeout
  | setDataSocket

/-- One step of the client.  `handle` (lines 83-102) installs the handler and
a fresh task unconditionally — there is no pending-task check — and sends the
command if one is given.  `close` (lines 32-36) logs and calls `destroy` on
each existing socket; it touches neither `_handler` nor `_task`.  Socket
events funnel into `respond` as wired by the `socket` setter and
`_setupSocket`; data-socket events can only fire once a data socket is
installed. -/
def step (st : St) (e : Ev) : St :=
  match e with
  | .handle cmd h =>
    let st1 := { st with handler := some h
                         task := some ⟨st.nextId, false⟩
                         nextId := st.nextId + 1 }
    match cmd with
    | some c => doSend st1 c
    | none => st1
  | .close =>
    { st with logged := st.logged ++ [closingLit]
              ctrlDestroy := st.ctrlDestroy + 1
              dataDestroy := st.dataDestroy + (if st.hasData then 1 else 0) }
  | .ctrlData chunk =>
    respond { st with logged := st.logged ++ ['<' :: ' ' :: jsTrim chunk] }
      (chunkToPayload chunk)
  | .ctrlError m => respond st { error := some (.transport m) }
  | .ctrlTimeout => respond st { error := some .timeout }
  | .dataError m => if st.hasData then respond st { error := some (.transport m) } else st
  | .dataTimeout => if st.hasData then respond st { error := some .timeout } else st
  | .setDataSocket =>
    { st with hasData := true, dataTimeoutSet := some st.timeoutMillis }

/-- The state after `new Client(timeoutMillis)` (lines 12-27): the default
parameter value is `0`; the constructor assigns `this.socket = new Socket()`,
whose setter runs `_setupSocket`, applying `setTimeout(this._timeoutMillis)`
to the control socket; `dataSocket` starts `undefined`. -/
def initSt (timeoutMillis : Option Nat) : St :=
  { timeoutMillis := timeoutMillis.getD 0
    nextId := 0
    handler := none
    task := none
    results := []
    hasData := false
    ctrlDestroy := 0
    dataDestroy := 0
    ctrlTimeoutSet := some (timeoutMillis.getD 0)
    dataTimeoutSet := none
    sentCmds := []
    logged := [] }

/-- Run a client constructed with the given timeout over a list of events. -/
def run (tm : Option Nat) (evs : List Ev) : St :=
  evs.foldl step (initSt tm)

/-- JS truthiness of `res.code` (`undefined`/`NaN`/`0` are falsy). -/
def truthy (c : Option Int) : Bool :=
  match c with
  | none => false
  | some z => z != 0

/-- Model of `res.code >= 200 && res.code < 400` (false for `undefined`/`NaN`). -/
def successCode (c : Option Int) : Bool :=
  match c with
  | none => false
  | some z => 200 ≤ z && z < 400

/-- The handler of `connect` (lines 166-173): code 220 resolves with no value,
anything else rejects with the response. -/
def connectHandler : Handler := fun p =>
  if p.code = some 220 then .resolve .unit else .reject (.payload p)

/-- The handler of `send` (lines 185-193). -/
def sendHandler (ignoreErrorCodes : Bool) : Handler := fun p =>
  if successCode p.code || (truthy p.code && ignoreErrorCodes) then .resolve (.codeV p.code)
  else .reject (.payload p)

/-- A task is pending: the task slot holds an unsettled task. -/
def taskPendingB (st : St) : Bool :=
  match st.task with
  | some t => !t.settled
  | none => false

/-- Ids of the settled promises. -/
def resultIds (st : St) : List Nat := st.results.map Prod.fst

/-- The socket events routed through `_respond`. -/
def isSignal : Ev → Bool
  | .ctrlData _ => true
  | .ctrlError _ => true
  | .ctrlTimeout => true
  | .dataError _ => true
  | .dataTimeout => true
  | _ => false

/-- The payload the `timeout` listeners deliver (`{ error: "Timeout" }`,
line 125). -/
def timeoutPayload : Payload := { error := some .timeout }

/-- State invariant tying the handler slot, the task slot and the settled
promises together. -/
def CtxInv (st : St) : Prop :=
  st.handler.isSome = taskPendingB st ∧
  (resultIds st).Nodup ∧
  (∀ t, st.task = some t → t.settled = false → t.id ∉ resultIds st) ∧
  (∀ i ∈ resultIds st, i < st.nextId) ∧
  (∀ t, st.task = some t → t.id < st.nextId)

/-- Timeout bookkeeping invariant: the constructed timeout value is applied
unchanged to the control socket and, once a data socket exists, to it too. -/
def TmInv (tm0 : Nat) (st : St) : Prop :=
  st.timeoutMillis = tm0 ∧ st.ctrlTimeoutSet = some tm0 ∧
    (st.hasData = true → st.dataTimeoutSet = some tm0)

/-! ## Reply rendering (for the well-formed single-reply-per-chunk statement) -/

/-- An abstract FTP reply: the three-digit code and the rest of its text (from
right after the digits through the last character before the terminating
CRLF; for a multi-line reply this includes the inner CRLFs). -/
structure Reply where
  code : Nat
  rest : List Char
  deriving DecidableEq

/-- The wire form of a reply: digits, rest, CRLF. -/
def renderReply (r : Reply) : List Char :=
  natDec r.code ++ r.rest ++ ['\r', '\n']

/-- Well-formedness: a valid 3-digit FTP code, and the text does not end in
whitespace (so that `trim` removes exactly the terminating CRLF). -/
def replyWF (r : Reply) : Bool :=
  100 ≤ r.code && r.code ≤ 599 &&
    (match r.rest.getLast? with
     | some c => !isWS c
     | none => true)

/-- The `FTPResponse` the claim expects for a reply: the leading integer and
the full text without the trailing CRLF. -/
def replyPayload (r : Reply) : Payload :=
  { code := some (r.code : Int)
    message := some (natDec r.code ++ r.rest)
    error := none }

/-! ## Helper lemmas: digits and decimal rendering -/

theorem digitChar_isDigit (d : Nat) (h : d ≤ 9) : isDigitChar (digitChar d) = true := by
  interval_cases d <;> decide

theorem digitVal_digitChar (d : Nat) (h : d ≤ 9) : digitVal (digitChar d) = d := by
  interval_cases d <;> decide

theorem isDigit_toNat {c : Char} (h : isDigitChar c = true) :
    48 ≤ c.toNat ∧ c.toNat ≤ 57 := by
  simpa [isDigitChar, Bool.and_eq_true, decide_eq_true_eq] using h

theorem isDigit_not_ws {c : Char} (h : isDigitChar c = true) : isWS c = false := by
  obtain ⟨h1, h2⟩ := isDigit_toNat h
  simp only [isWS, Bool.or_eq_false_iff, beq_eq_false_iff_ne, ne_eq]
  refine ⟨⟨⟨⟨⟨?_, ?_⟩, ?_⟩, ?_⟩, ?_⟩, ?_⟩ <;>
    · intro hc; subst hc; revert h1 h2; decide

theorem isDigit_ne_dash {c : Char} (h : isDigitChar c = true) : (c == '-') = false := by
  obtain ⟨h1, h2⟩ := isDigit_toNat h
  simp only [beq_eq_false_iff_ne, ne_eq]
  intro hc; subst hc; revert h1 h2; decide

theorem isDigit_ne_plus {c : Char} (h : isDigitChar c = true) : (c == '+') = false := by
  obtain ⟨h1, h2⟩ := isDigit_toNat h
  simp only [beq_eq_false_iff_ne, ne_eq]
  intro hc; subst hc; revert h1 h2; decide

theorem isDigit_ne_comma {c : Char} (h : isDigitChar c = true) : c ≠ ',' := by
  obtain ⟨h1, h2⟩ := isDigit_toNat h
  intro hc; subst hc; revert h1 h2; decide

theorem isDigit_pasv {c : Char} (h : isDigitChar c = true) : isPasvChar c = true := by
  simp [isPasvChar, h]

theorem natDecGo_irrel : ∀ f1 f2 n : Nat, n < f1 → n < f2 → natDecGo f1 n = natDecGo f2 n := by
  intro f1
  induction f1 with
  | zero => intro f2 n h1; omega
  | succ f1 ih =>
    intro f2 n h1 h2
    cases f2 with
    | zero => omega
    | succ f2 =>
      by_cases h : n < 10
      · simp [natDecGo, h]
      · have hdiv : n / 10 < n := Nat.div_lt_self (by omega) (by omega)
        simp only [natDecGo, h, if_false]
        rw [ih f2 (n / 10) (by omega) (by omega)]

theorem natDec_small (n : Nat) (h : n < 10) : natDec n = [digitChar n] := by
  simp [natDec, natDecGo, h]

theorem natDec_big (n : Nat) (h : ¬ n < 10) :
    natDec n = natDec (n / 10) ++ [digitChar (n % 10)] := by
  have hdiv : n / 10 < n := Nat.div_lt_self (by omega) (by omega)
  have h1 : natDec n = natDecGo n (n / 10) ++ [digitChar (n % 10)] := by
    show (if n < 10 then [digitChar n] else natDecGo n (n / 10) ++ [digitChar (n % 10)]) = _
    rw [if_neg h]
  rw [h1, natDecGo_irrel n (n / 10 + 1) (n / 10) (by omega) (by omega)]
  rfl

theorem natDec_ne_nil (n : Nat) : natDec n ≠ [] := by
  by_cases h : n < 10
  · rw [natDec_small n h]; simp
  · rw [natDec_big n h]; simp

theorem natDec_digits (n : Nat) : ∀ c ∈ natDec n, isDigitChar c = true := by
  induction n using Nat.strong_induction_on with
  | _ n ih =>
    by_cases h : n < 10
    · rw [natDec_small n h]
      intro c hc
      simp only [List.mem_singleton] at hc
      subst hc
      exact digitChar_isDigit n (by omega)
    · rw [natDec_big n h]
      intro c hc
      rcases List.mem_append.mp hc with hc | hc
      · exact ih (n / 10) (Nat.div_lt_self (by omega) (by omega)) c hc
      · simp only [List.mem_singleton] at hc
        subst hc
        exact digitChar_isDigit (n % 10) (by omega)

theorem digitsVal_append_one (l : List Char) (c : Char) :
    digitsVal (l ++ [c]) = 10 * digitsVal l + digitVal c := by
  simp [digitsVal, List.foldl_append]

theorem digitsVal_natDec (n : Nat) : digitsVal (natDec n) = n := by
  induction n using Nat.strong_induction_on with
  | _ n ih =>
    by_cases h : n < 10
    · rw [natDec_small n h]
      simp [digitsVal, digitVal_digitChar n (by omega)]
    · rw [natDec_big n h, digitsVal_append_one,
        ih (n / 10) (Nat.div_lt_self (by omega) (by omega)),
        digitVal_digitChar (n % 10) (by omega)]
      omega

theorem natDec_len3 (n : Nat) (h1 : 100 ≤ n) (h2 : n ≤ 999) : (natDec n).length = 3 := by
  have ha : ¬ n < 10 := by omega
  have hb : ¬ n / 10 < 10 := by
    have : 10 ≤ n / 10 := (Nat.le_div_iff_mul_le (by omega)).mpr (by omega)
    omega
  have hc : n / 10 / 10 < 10 := by
    have : n / 10 ≤ 99 := by
      have : n / 10 < 100 := (Nat.div_lt_iff_lt_mul (by omega)).mpr (by omega)
      omega
    have : n / 10 / 10 < 10 := (Nat.div_lt_iff_lt_mul (by omega)).mpr (by omega)
    omega
  rw [natDec_big n ha, natDec_big (n / 10) hb, natDec_small (n / 10 / 10) hc]
  simp

/-! ## Helper lemmas: takeWhile / dropWhile boundaries -/

theorem takeWhile_append_cons (p : Char → Bool) (c : Char) (t : List Char) (hc : p c = false) :
    ∀ l : List Char, (∀ x ∈ l, p x = true) →
      (l ++ c :: t).takeWhile p = l ∧ (l ++ c :: t).dropWhile p = c :: t := by
  intro l
  induction l with
  | nil =>
    intro _
    constructor
    · simp [List.takeWhile_cons, hc]
    · simp [List.dropWhile_cons, hc]
  | cons a l ih =>
    intro hmem
    have ha : p a = true := hmem a (by simp)
    have hl : ∀ x ∈ l, p x = true := fun x hx => hmem x (by simp [hx])
    obtain ⟨ih1, ih2⟩ := ih hl
    constructor
    · simp [List.takeWhile_cons, ha, ih1]
    · simp [List.dropWhile_cons, ha, ih2]

theorem takeWhile_all (p : Char → Bool) :
    ∀ l : List Char, (∀ x ∈ l, p x = true) → l.takeWhile p = l := by
  intro l
  induction l with
  | nil => intro _; rfl
  | cons a l ih =>
    intro hmem
    have ha : p a = true := hmem a (by simp)
    simp [List.takeWhile_cons, ha, ih (fun x hx => hmem x (by simp [hx]))]

theorem dropWhile_head_not (p : Char → Bool) (l : List Char) (c : Char)
    (h : l.head? = some c) (hc : p c = false) : l.dropWhile p = l := by
  cases l with
  | nil => simp at h
  | cons a t =>
    simp only [List.head?_cons, Option.some.injEq] at h
    subst h
    simp [List.dropWhile_cons, hc]

/-! ## Helper lemmas: parseInt and trim on rendered content -/

theorem parseLeadingDigits_natDec (n : Nat) :
    parseLeadingDigits (natDec n) = some n := by
  have h1 : (natDec n).takeWhile isDigitChar = natDec n :=
    takeWhile_all isDigitChar (natDec n) (natDec_digits n)
  have h2 : (natDec n).isEmpty = false := by
    cases hn : natDec n with
    | nil => exact absurd hn (natDec_ne_nil n)
    | cons a t => rfl
  simp [parseLeadingDigits, h1, h2, digitsVal_natDec]

theorem jsParseInt_natDec (n : Nat) : jsParseInt (natDec n) = some (n : Int) := by
  obtain ⟨c, t, hct⟩ : ∃ c t, natDec n = c :: t := by
    cases hn : natDec n with
    | nil => exact absurd hn (natDec_ne_nil n)
    | cons a t => exact ⟨a, t, rfl⟩
  have hcdig : isDigitChar c = true := natDec_digits n c (by rw [hct]; simp)
  have hdrop : (natDec n).dropWhile isWS = natDec n :=
    dropWhile_head_not isWS (natDec n) c (by rw [hct]; rfl) (isDigit_not_ws hcdig)
  rw [jsParseInt, hdrop, hct]
  simp only [isDigit_ne_dash hcdig, isDigit_ne_plus hcdig, if_false]
  rw [← hct, parseLeadingDigits_natDec]
  rfl

theorem jsTrim_reply (n : Nat) (rest : List Char)
    (hrest : ∀ c, rest.getLast? = some c → isWS c = false) :
    jsTrim (natDec n ++ rest ++ ['\r', '\n']) = natDec n ++ rest := by
  obtain ⟨c, t, hct⟩ : ∃ c t, natDec n = c :: t := by
    cases hn : natDec n with
    | nil => exact absurd hn (natDec_ne_nil n)
    | cons a t => exact ⟨a, t, rfl⟩
  have hcdig : isDigitChar c = true := natDec_digits n c (by rw [hct]; simp)
  have hfront : (natDec n ++ rest ++ ['\r', '\n']).dropWhile isWS
      = natDec n ++ rest ++ ['\r', '\n'] := by
    refine dropWhile_head_not isWS _ c ?_ (isDigit_not_ws hcdig)
    rw [hct]; rfl
  have hlast : ∀ x, (natDec n ++ rest).getLast? = some x → isWS x = false := by
    intro x hx
    cases hr : rest with
    | nil =>
      subst hr
      simp only [List.append_nil] at hx
      have hne := natDec_ne_nil n
      rw [List.getLast?_eq_getLast _ hne] at hx
      have hmem := List.getLast_mem hne
      injection hx with hx
      subst hx
      exact isDigit_not_ws (natDec_digits n _ hmem)
    | cons a t2 =>
      rw [List.getLast?_append_of_ne_nil _ (by simp [hr])] at hx
      exact hrest x hx
  have hrev : (natDec n ++ rest).reverse.dropWhile isWS = (natDec n ++ rest).reverse := by
    cases hr : (natDec n ++ rest).reverse.head? with
    | none =>
      rw [List.head?_reverse] at hr
      cases hg : (natDec n ++ rest) with
      | nil =>
        have := natDec_ne_nil n
        rcases List.append_eq_nil.mp hg with ⟨h1, _⟩
        exact absurd h1 this
      | cons a t2 => rw [hg] at hr; simp [List.getLast?_eq_getLast] at hr
    | some x =>
      refine dropWhile_head_not isWS _ x hr ?_
      rw [List.head?_reverse] at hr
      exact hlast x hr
  rw [jsTrim, hfront]
  rw [show natDec n ++ rest ++ ['\r', '\n'] = (natDec n ++ rest) ++ ['\r', '\n'] from rfl]
  rw [List.reverse_append]
  show ((('\n' :: '\r' :: []) ++ (natDec n ++ rest).reverse).dropWhile isWS).reverse
      = natDec n ++ rest
  rw [List.cons_append, List.cons_append, List.dropWhile_cons, List.dropWhile_cons]
  simp only [show isWS '\n' = true from rfl, show isWS '\r' = true from rfl, if_true]
  rw [List.nil_append, hrev, List.reverse_reverse]

/-! ## Helper lemmas: the PASV matcher on a well-formed payload -/

theorem natDec_pasv (n : Nat) : ∀ c ∈ natDec n, isPasvChar c = true :=
  fun c hc => isDigit_pasv (natDec_digits n c hc)

theorem natDec_isEmpty (n : Nat) : (natDec n).isEmpty = false := by
  cases hn : natDec n with
  | nil => exact absurd hn (natDec_ne_nil n)
  | cons a t => rfl

theorem matchRunComma_digits (x : Nat) (t : List Char) :
    matchRunComma (natDec x ++ ',' :: t) = some (natDec x, t) := by
  obtain ⟨h1, h2⟩ :=
    takeWhile_append_cons isPasvChar ',' t (by decide) (natDec x) (natDec_pasv x)
  rw [matchRunComma]
  simp only [h1, h2, natDec_isEmpty x, Bool.false_eq_true, if_false]

theorem matchRunEnd_close (x : Nat) :
    matchRunEnd (natDec x ++ [')']) = some (natDec x) := by
  obtain ⟨h1, _⟩ :=
    takeWhile_append_cons isPasvChar ')' [] (by decide) (natDec x) (natDec_pasv x)
  rw [matchRunEnd]
  simp only [h1, natDec_isEmpty x, Bool.false_eq_true, if_false]

theorem matchPasvAt_payload (a b c d hi lo : Nat) :
    matchPasvAt (natDec a ++ ',' :: (natDec b ++ ',' :: (natDec c ++ ',' :: (natDec d ++
        ',' :: (natDec hi ++ ',' :: (natDec lo ++ [')'])))))) =
      some (natDec a ++ ',' :: natDec b ++ ',' :: natDec c ++ ',' :: natDec d,
        natDec hi, natDec lo) := by
  simp only [matchPasvAt, matchRunComma_digits, matchRunEnd_close]

theorem findPasv_at_match (c : Char) (t : List Char)
    (g : List Char × List Char × List Char) (h : matchPasvAt (c :: t) = some g) :
    findPasv (c :: t) = some g := by
  rw [findPasv, h]

/-! ## Helper lemmas: chunk round-trip for well-formed replies -/

theorem chunk_roundtrip (r : Reply) (h : replyWF r = true) :
    chunkToPayload (renderReply r) = replyPayload r := by
  have hconj : (100 ≤ r.code ∧ r.code ≤ 599) ∧
      (match r.rest.getLast? with
       | some c => !isWS c
       | none => true) = true := by
    simpa [replyWF, Bool.and_eq_true, decide_eq_true_eq] using h
  obtain ⟨⟨hlo, hhi⟩, hlast⟩ := hconj
  have hlast' : ∀ c, r.rest.getLast? = some c → isWS c = false := by
    intro c hc
    rw [hc] at hlast
    simpa using hlast
  have htrim : jsTrim (renderReply r) = natDec r.code ++ r.rest :=
    jsTrim_reply r.code r.rest hlast'
  have htake : (natDec r.code ++ r.rest).take 3 = natDec r.code := by
    have hlen := natDec_len3 r.code hlo (by omega)
    rw [← hlen, List.take_left]
  rw [chunkToPayload, replyPayload, htrim, htake, jsParseInt_natDec]

/-! ## Helper lemmas: the client state machine -/

theorem respond_no_handler (st : St) (p : Payload) (h : st.handler = none) :
    respond st p = st := by
  rw [respond, h]

theorem respond_frame (st : St) (p : Payload) :
    (respond st p).timeoutMillis = st.timeoutMillis ∧
    (respond st p).ctrlTimeoutSet = st.ctrlTimeoutSet ∧
    (respond st p).dataTimeoutSet = st.dataTimeoutSet ∧
    (respond st p).hasData = st.hasData ∧
    (respond st p).nextId = st.nextId := by
  cases hh : st.handler with
  | none => rw [respond_no_handler st p hh]; exact ⟨rfl, rfl, rfl, rfl, rfl⟩
  | some f =>
    cases hfp : f p <;> simp [respond, hh, hfp]

theorem respond_settles (st : St) (f : Handler) (p : Payload) (t : TaskRec)
    (hh : st.handler = some f) (ht : st.task = some t) :
    (∀ v, f p = .resolve v →
      (respond st p).results = st.results ++ [(t.id, .ok v)] ∧ (respond st p).handler = none) ∧
    (∀ e, f p = .reject e →
      (respond st p).results = st.results ++ [(t.id, .err e)] ∧ (respond st p).handler = none) := by
  constructor
  · intro v hv
    simp [respond, hh, hv, ht]
  · intro e he
    simp [respond, hh, he, ht]

theorem ctxInv_init (tm : Option Nat) : CtxInv (initSt tm) := by
  refine ⟨rfl, ?_, ?_, ?_, ?_⟩ <;> simp [initSt, resultIds, taskPendingB]

theorem taskPendingB_of_handler {st : St} {f : Handler} (h1 : st.handler.isSome = taskPendingB st)
    (hh : st.handler = some f) : ∃ t, st.task = some t ∧ t.settled = false := by
  have hpend : taskPendingB st = true := by rw [← h1, hh]; rfl
  unfold taskPendingB at hpend
  cases hta : st.task with
  | none => rw [hta] at hpend; cases hpend
  | some t =>
    rw [hta] at hpend
    simp only [Bool.not_eq_true'] at hpend
    exact ⟨t, rfl, hpend⟩

theorem ctxInv_respond (st : St) (p : Payload) (h : CtxInv st) : CtxInv (respond st p) := by
  obtain ⟨h1, h2, h3, h4, h5⟩ := h
  cases hh : st.handler with
  | none => rw [respond_no_handler st p hh]; exact ⟨h1, h2, h3, h4, h5⟩
  | some f =>
    obtain ⟨t, ht, hts⟩ := taskPendingB_of_handler h1 hh
    cases hfp : f p with
    | keep =>
      simp only [respond, hh, hfp]
      exact ⟨h1, h2, h3, h4, h5⟩
    | resolve v =>
      simp only [respond, hh, hfp, ht, Option.map_some']
      refine ⟨rfl, ?_, ?_, ?_, ?_⟩
      · show ((st.results ++ [(t.id, Outcome.ok v)]).map Prod.fst).Nodup
        rw [List.map_append]
        simp only [List.map_cons, List.map_nil]
        rw [List.nodup_append]
        exact ⟨h2, List.nodup_singleton _, by
          intro x hx (hy : x ∈ [t.id])
          simp only [List.mem_singleton] at hy
          subst hy
          exact h3 t ht hts hx⟩
      · intro t' ht' hts'
        simp only [Option.map_some', Option.some.injEq] at ht'
        rw [← ht'] at hts'
        cases hts'
      · intro i hi
        show i < st.nextId
        simp only [resultIds, List.map_append, List.map_cons, List.map_nil,
          List.mem_append, List.mem_singleton] at hi
        rcases hi with hi | hi
        · exact h4 i hi
        · subst hi; exact h5 t ht
      · intro t' ht'
        simp only [Option.map_some', Option.some.injEq] at ht'
        rw [← ht']
        exact h5 t ht
    | reject e =>
      simp only [respond, hh, hfp, ht, Option.map_some']
      refine ⟨rfl, ?_, ?_, ?_, ?_⟩
      · show ((st.results ++ [(t.id, Outcome.err e)]).map Prod.fst).Nodup
        rw [List.map_append]
        simp only [List.map_cons, List.map_nil]
        rw [List.nodup_append]
        exact ⟨h2, List.nodup_singleton _, by
          intro x hx (hy : x ∈ [t.id])
          simp only [List.mem_singleton] at hy
          subst hy
          exact h3 t ht hts hx⟩
      · intro t' ht' hts'
        simp only [Option.map_some', Option.some.injEq] at ht'
        rw [← ht'] at hts'
        cases hts'
      · intro i hi
        show i < st.nextId
        simp only [resultIds, List.map_append, List.map_cons, List.map_nil,
          List.mem_append, List.mem_singleton] at hi
        rcases hi with hi | hi
        · exact h4 i hi
        · subst hi; exact h5 t ht
      · intro t' ht'
        simp only [Option.map_some', Option.some.injEq] at ht'
        rw [← ht']
        exact h5 t ht

theorem ctxInv_step (st : St) (e : Ev) (h : CtxInv st) : CtxInv (step st e) := by
  obtain ⟨h1, h2, h3, h4, h5⟩ := h
  cases e with
  | handle cmd f =>
    have base : CtxInv { st with handler := some f
                                 task := some ⟨st.nextId, false⟩
                                 nextId := st.nextId + 1 } := by
      refine ⟨rfl, h2, ?_, ?_, ?_⟩
      · intro t ht _
        injection ht with ht
        rw [← ht]
        intro hmem
        exact absurd (h4 _ hmem) (by simp)
      · intro i hi
        exact Nat.lt_succ_of_lt (h4 i hi)
      · intro t ht
        injection ht with ht
        rw [← ht]
        exact Nat.lt_succ_self _
    cases cmd with
    | some c => exact base
    | none => exact base
  | close => exact ⟨h1, h2, h3, h4, h5⟩
  | ctrlData chunk =>
    exact ctxInv_respond _ _ ⟨h1, h2, h3, h4, h5⟩
  | ctrlError m => exact ctxInv_respond _ _ ⟨h1, h2, h3, h4, h5⟩
  | ctrlTimeout => exact ctxInv_respond _ _ ⟨h1, h2, h3, h4, h5⟩
  | dataError m =>
    show CtxInv (if st.hasData then respond st { error := some (.transport m) } else st)
    by_cases hd : st.hasData
    · rw [if_pos hd]; exact ctxInv_respond _ _ ⟨h1, h2, h3, h4, h5⟩
    · rw [if_neg hd]; exact ⟨h1, h2, h3, h4, h5⟩
  | dataTimeout =>
    show CtxInv (if st.hasData then respond st { error := some .timeout } else st)
    by_cases hd : st.hasData
    · rw [if_pos hd]; exact ctxInv_respond _ _ ⟨h1, h2, h3, h4, h5⟩
    · rw [if_neg hd]; exact ⟨h1, h2, h3, h4, h5⟩
  | setDataSocket => exact ⟨h1, h2, h3, h4, h5⟩

theorem ctxInv_foldl (evs : List Ev) :
    ∀ st : St, CtxInv st → CtxInv (evs.foldl step st) := by
  induction evs with
  | nil => intro st h; exact h
  | cons e evs ih => intro st h; exact ih _ (ctxInv_step st e h)

theorem ctxInv_run (tm : Option Nat) (evs : List Ev) : CtxInv (run tm evs) :=
  ctxInv_foldl evs _ (ctxInv_init tm)

theorem orphan_respond (st : St) (p : Payload)
    (h1 : ∀ t, st.task = some t → 1 ≤ t.id) (h3 : 0 ∉ resultIds st) :
    (∀ t, (respond st p).task = some t → 1 ≤ t.id) ∧
      0 ∉ resultIds (respond st p) ∧ (respond st p).nextId = st.nextId := by
  cases hh : st.handler with
  | none => rw [respond_no_handler st p hh]; exact ⟨h1, h3, rfl⟩
  | some f =>
    cases hfp : f p with
    | keep =>
      simp only [respond, hh, hfp]
      exact ⟨h1, h3, trivial⟩
    | resolve v =>
      simp only [respond, hh, hfp]
      cases hta : st.task with
      | none =>
        refine ⟨?_, ?_, trivial⟩
        · intro t ht; cases ht
        · simpa [resultIds] using h3
      | some t =>
        have hid : 1 ≤ t.id := h1 t hta
        refine ⟨?_, ?_, trivial⟩
        · intro t' ht'
          simp only [Option.map_some', Option.some.injEq] at ht'
          rw [← ht']
          exact hid
        · show 0 ∉ (st.results ++ [(t.id, Outcome.ok v)]).map Prod.fst
          rw [List.map_append]
          simp only [List.map_cons, List.map_nil, List.mem_append, List.mem_singleton]
          rintro (hmem | hmem)
          · exact h3 hmem
          · omega
    | reject e =>
      simp only [respond, hh, hfp]
      cases hta : st.task with
      | none =>
        refine ⟨?_, ?_, trivial⟩
        · intro t ht; cases ht
        · simpa [resultIds] using h3
      | some t =>
        have hid : 1 ≤ t.id := h1 t hta
        refine ⟨?_, ?_, trivial⟩
        · intro t' ht'
          simp only [Option.map_some', Option.some.injEq] at ht'
          rw [← ht']
          exact hid
        · show 0 ∉ (st.results ++ [(t.id, Outcome.err e)]).map Prod.fst
          rw [List.map_append]
          simp only [List.map_cons, List.map_nil, List.mem_append, List.mem_singleton]
          rintro (hmem | hmem)
          · exact h3 hmem
          · omega

theorem orphan_step (st : St) (e : Ev)
    (h0 : 1 ≤ st.nextId) (h1 : ∀ t, st.task = some t → 1 ≤ t.id)
    (h3 : 0 ∉ resultIds st) :
    1 ≤ (step st e).nextId ∧ (∀ t, (step st e).task = some t → 1 ≤ t.id) ∧
      0 ∉ resultIds (step st e) := by
  cases e with
  | handle cmd f =>
    have key : ∀ t : TaskRec, some (⟨st.nextId, false⟩ : TaskRec) = some t → 1 ≤ t.id := by
      intro t ht
      injection ht with ht
      rw [← ht]
      exact h0
    cases cmd with
    | some c => exact ⟨Nat.le_succ_of_le h0, key, h3⟩
    | none => exact ⟨Nat.le_succ_of_le h0, key, h3⟩
  | close => exact ⟨h0, h1, h3⟩
  | ctrlData chunk =>
    obtain ⟨a, b, c⟩ := orphan_respond { st with logged := st.logged ++ ['<' :: ' ' :: jsTrim chunk] }
      (chunkToPayload chunk) h1 h3
    exact ⟨by rw [show (step st (.ctrlData chunk)).nextId = _ from c]; exact h0, a, b⟩
  | ctrlError m =>
    obtain ⟨a, b, c⟩ := orphan_respond st { error := some (.transport m) } h1 h3
    exact ⟨by rw [show (step st (.ctrlError m)).nextId = _ from c]; exact h0, a, b⟩
  | ctrlTimeout =>
    obtain ⟨a, b, c⟩ := orphan_respond st { error := some .timeout } h1 h3
    exact ⟨by rw [show (step st .ctrlTimeout).nextId = _ from c]; exact h0, a, b⟩
  | dataError m =>
    show 1 ≤ (if st.hasData then respond st { error := some (.transport m) } else st).nextId ∧
      (∀ t, (if st.hasData then respond st { error := some (.transport m) } else st).task = some t → 1 ≤ t.id) ∧
      0 ∉ resultIds (if st.hasData then respond st { error := some (.transport m) } else st)
    by_cases hd : st.hasData
    · rw [if_pos hd]
      obtain ⟨a, b, c⟩ := orphan_respond st { error := some (.transport m) } h1 h3
      exact ⟨by rw [c]; exact h0, a, b⟩
    · rw [if_neg hd]
      exact ⟨h0, h1, h3⟩
  | dataTimeout =>
    show 1 ≤ (if st.hasData then respond st { error := some .timeout } else st).nextId ∧
      (∀ t, (if st.hasData then respond st { error := some .timeout } else st).task = some t → 1 ≤ t.id) ∧
      0 ∉ resultIds (if st.hasData then respond st { error := some .timeout } else st)
    by_cases hd : st.hasData
    · rw [if_pos hd]
      obtain ⟨a, b, c⟩ := orphan_respond st { error := some .timeout } h1 h3
      exact ⟨by rw [c]; exact h0, a, b⟩
    · rw [if_neg hd]
      exact ⟨h0, h1, h3⟩
  | setDataSocket => exact ⟨h0, h1, h3⟩

theorem orphan_foldl (evs : List Ev) :
    ∀ st : St, 1 ≤ st.nextId → (∀ t, st.task = some t → 1 ≤ t.id) →
      0 ∉ resultIds st → 0 ∉ resultIds (evs.foldl step st) := by
  induction evs with
  | nil => intro st _ _ h3; exact h3
  | cons e evs ih =>
    intro st h0 h1 h3
    obtain ⟨a, b, c⟩ := orphan_step st e h0 h1 h3
    exact ih _ a b c

theorem tmInv_step (tm0 : Nat) (st : St) (e : Ev) (h : TmInv tm0 st) :
    TmInv tm0 (step st e) := by
  obtain ⟨h1, h2, h3⟩ := h
  cases e with
  | handle cmd f =>
    cases cmd with
    | some c => exact ⟨h1, h2, h3⟩
    | none => exact ⟨h1, h2, h3⟩
  | close => exact ⟨h1, h2, h3⟩
  | ctrlData chunk =>
    obtain ⟨f1, f2, f3, f4, _⟩ :=
      respond_frame { st with logged := st.logged ++ ['<' :: ' ' :: jsTrim chunk] }
        (chunkToPayload chunk)
    exact ⟨by rw [show (step st (.ctrlData chunk)).timeoutMillis = _ from f1]; exact h1,
      by rw [show (step st (.ctrlData chunk)).ctrlTimeoutSet = _ from f2]
         rw [show ({ st with logged := st.logged ++ ['<' :: ' ' :: jsTrim chunk] } : St).ctrlTimeoutSet = st.ctrlTimeoutSet from rfl, h2],
      by intro hd
         rw [show (step st (.ctrlData chunk)).dataTimeoutSet = _ from f3]
         rw [show (step st (.ctrlData chunk)).hasData = _ from f4] at hd
         exact h3 hd⟩
  | ctrlError m =>
    obtain ⟨f1, f2, f3, f4, _⟩ := respond_frame st { error := some (.transport m) }
    exact ⟨by rw [show (step st (.ctrlError m)).timeoutMillis = _ from f1]; exact h1,
      by rw [show (step st (.ctrlError m)).ctrlTimeoutSet = _ from f2]; exact h2,
      by intro hd
         rw [show (step st (.ctrlError m)).dataTimeoutSet = _ from f3]
         rw [show (step st (.ctrlError m)).hasData = _ from f4] at hd
         exact h3 hd⟩
  | ctrlTimeout =>
    obtain ⟨f1, f2, f3, f4, _⟩ := respond_frame st { error := some .timeout }
    exact ⟨by rw [show (step st .ctrlTimeout).timeoutMillis = _ from f1]; exact h1,
      by rw [show (step st .ctrlTimeout).ctrlTimeoutSet = _ from f2]; exact h2,
      by intro hd
         rw [show (step st .ctrlTimeout).dataTimeoutSet = _ from f3]
         rw [show (step st .ctrlTimeout).hasData = _ from f4] at hd
         exact h3 hd⟩
  | dataError m =>
    show TmInv tm0 (if st.hasData then respond st { error := some (.transport m) } else st)
    by_cases hd : st.hasData
    · rw [if_pos hd]
      obtain ⟨f1, f2, f3, f4, _⟩ := respond_frame st { error := some (.transport m) }
      exact ⟨by rw [f1]; exact h1, by rw [f2]; exact h2,
        by intro hd2; rw [f3]; rw [f4] at hd2; exact h3 hd2⟩
    · rw [if_neg hd]
      exact ⟨h1, h2, h3⟩
  | dataTimeout =>
    show TmInv tm0 (if st.hasData then respond st { error := some .timeout } else st)
    by_cases hd : st.hasData
    · rw [if_pos hd]
      obtain ⟨f1, f2, f3, f4, _⟩ := respond_frame st { error := some .timeout }
      exact ⟨by rw [f1]; exact h1, by rw [f2]; exact h2,
        by intro hd2; rw [f3]; rw [f4] at hd2; exact h3 hd2⟩
    · rw [if_neg hd]
      exact ⟨h1, h2, h3⟩
  | setDataSocket =>
    exact ⟨h1, h2, fun _ => by
      show some st.timeoutMillis = some tm0
      rw [h1]⟩

theorem tmInv_foldl (tm0 : Nat) (evs : List Ev) :
    ∀ st : St, TmInv tm0 st → TmInv tm0 (evs.foldl step st) := by
  induction evs with
  | nil => intro st h; exact h
  | cons e evs ih => intro st h; exact ih _ (tmInv_step tm0 st e h)

theorem tmInv_run (tm : Option Nat) (evs : List Ev) : TmInv (tm.getD 0) (run tm evs) :=
  tmInv_foldl _ evs _ ⟨rfl, rfl, fun h => by cases h⟩

/-! ## Helper lemmas: assembling the PASV round-trip -/

set_option maxRecDepth 4000 in
theorem findPasv_skipIntro (t : List Char) : findPasv (pasvIntro ++ t) = findPasv t := rfl

theorem findPasv_of_match (l : List Char) (g : List Char × List Char × List Char)
    (hne : l ≠ []) (h : matchPasvAt l = some g) : findPasv l = some g := by
  cases l with
  | nil => exact absurd rfl hne
  | cons c t => simp only [findPasv, h]

theorem dotHost_append (l1 l2 : List Char) :
    dotHost (l1 ++ l2) = dotHost l1 ++ dotHost l2 := by
  simp [dotHost]

theorem dotHost_comma_cons (l : List Char) : dotHost (',' :: l) = '.' :: dotHost l := by
  simp [dotHost]

theorem dotHost_natDec (x : Nat) : dotHost (natDec x) = natDec x := by
  rw [dotHost]
  rw [List.map_congr_left (g := id) ?_, List.map_id]
  intro c hc
  have hdig := natDec_digits x c hc
  have hne : c ≠ ',' := isDigit_ne_comma hdig
  simp [hne]

theorem jsAnd255_small (x : Nat) (h : x < 256) : jsAnd255 (some (x : Int)) = x := by
  show ((x : Int) % 256).toNat = x
  rw [Int.emod_eq_of_lt (by positivity) (by exact_mod_cast h)]
  exact Int.toNat_natCast x

theorem jsAnd255_le (x : Option Int) : jsAnd255 x ≤ 255 := by
  cases x with
  | none => exact Nat.zero_le _
  | some z =>
    show (z % 256).toNat ≤ 255
    have h1 : 0 ≤ z % 256 := Int.emod_nonneg z (by norm_num)
    have h2 : z % 256 < 256 := Int.emod_lt_of_pos z (by norm_num)
    omega

/-! ## The claims -/

/-- Claim C7: PASV parse round-trip.  For every host `a.b.c.d` (components in
`[0,255]`) and every port `p` in `[0,65535]`, formatting the 227 message
payload as `(a,b,c,d,p>>8,p&0xFF)` and applying `parseIPV4PasvResponse`
yields exactly host `a.b.c.d` and port `p`: the parser joins the quad with
dots and computes the port as `(p1 & 0xFF) * 256 + (p2 & 0xFF)`. -/
theorem c7_pasv_roundtrip (a b c d p : Nat)
    (ha : a ≤ 255) (hb : b ≤ 255) (hc : c ≤ 255) (hd : d ≤ 255) (hp : p ≤ 65535) :
    parseIPV4PasvResponse (fmtPasv a b c d p) = some (hostQuad a b c d, p) := by
  have hpay : fmtPasv a b c d p = pasvIntro ++
      (natDec a ++ ',' :: (natDec b ++ ',' :: (natDec c ++ ',' :: (natDec d ++
        ',' :: (natDec (p / 256) ++ ',' :: (natDec (p % 256) ++ [')'])))))) := by
    simp [fmtPasv, List.append_assoc, List.cons_append]
  have hmatch := matchPasvAt_payload a b c d (p / 256) (p % 256)
  have hne : (natDec a ++ ',' :: (natDec b ++ ',' :: (natDec c ++ ',' :: (natDec d ++
      ',' :: (natDec (p / 256) ++ ',' :: (natDec (p % 256) ++ [')'])))))) ≠ [] := by
    intro hnil
    rcases List.append_eq_nil.mp hnil with ⟨h1, _⟩
    exact natDec_ne_nil a h1
  have hfind := findPasv_of_match _ _ hne hmatch
  rw [parseIPV4PasvResponse, hpay, findPasv_skipIntro]
  simp only [hfind]
  have hhost : dotHost (natDec a ++ ',' :: natDec b ++ ',' :: natDec c ++ ',' :: natDec d)
      = hostQuad a b c d := by
    rw [show (natDec a ++ ',' :: natDec b ++ ',' :: natDec c ++ ',' :: natDec d : List Char)
        = natDec a ++ ',' :: (natDec b ++ ',' :: (natDec c ++ ',' :: natDec d)) from by
      simp [List.append_assoc, List.cons_append]]
    rw [dotHost_append, dotHost_comma_cons, dotHost_append, dotHost_comma_cons,
      dotHost_append, dotHost_comma_cons, dotHost_natDec, dotHost_natDec,
      dotHost_natDec, dotHost_natDec, hostQuad]
    simp [List.append_assoc, List.cons_append]
  have hhi : p / 256 < 256 := by omega
  have hlo : p % 256 < 256 := by omega
  rw [jsParseInt_natDec, jsParseInt_natDec, jsAnd255_small _ hhi, jsAnd255_small _ hlo, hhost]
  have : p / 256 * 256 + p % 256 = p := by omega
  rw [this]

/-- Witness for C7 at the spec's scenario 4: host `192.168.3.200`,
port `2789 = 10*256+229`. -/
theorem c7_pasv_roundtrip_witness :
    parseIPV4PasvResponse (fmtPasv 192 168 3 200 2789)
      = some (hostQuad 192 168 3 200, 2789) ∧
    hostQuad 192 168 3 200 = ("192.168.3.200").data :=
  ⟨c7_pasv_roundtrip 192 168 3 200 2789 (by decide) (by decide) (by decide) (by decide)
    (by decide), by decide⟩

/-- Claim C10: whenever `parseIPV4PasvResponse` returns a result, the port is
in `[0,65535]`: both parsed port numbers pass through `& 255` before being
combined, so even malformed or negative digit groups cannot escape the valid
TCP range. -/
theorem c10_port_in_range (message host : List Char) (port : Nat)
    (h : parseIPV4PasvResponse message = some (host, port)) : port ≤ 65535 := by
  rw [parseIPV4PasvResponse] at h
  cases hf : findPasv message with
  | none => rw [hf] at h; cases h
  | some g =>
    obtain ⟨g1, g2, g3⟩ := g
    rw [hf] at h
    simp only [Option.some.injEq, Prod.mk.injEq] at h
    obtain ⟨-, hport⟩ := h
    have hb2 : jsAnd255 (jsParseInt g2) ≤ 255 := jsAnd255_le _
    have hb3 : jsAnd255 (jsParseInt g3) ≤ 255 := jsAnd255_le _
    omega

/-- Claim C1 counterexample: the client does no buffering — the data listener
treats every chunk as one complete reply.  Splitting the single valid reply
`220 Service ready CRLF` into the chunks `220 Serv` and `ice ready CRLF`
makes the client emit two responses (the second with a NaN code), not the one
FTPResponse the claim requires for every partitioning of the stream. -/
theorem c1_chunking_counterexample :
    emitResponses [("220 Serv").data, ("ice ready" ++ "\r\n").data]
      = [{ code := some 220, message := some (("220 Serv").data), error := none },
         { code := none, message := some (("ice ready").data), error := none }] ∧
    emitResponses [("220 Serv").data, ("ice ready" ++ "\r\n").data]
      ≠ [{ code := some 220, message := some (("220 Service ready").data), error := none }] := by
  decide

/-- Claim C1 (amended): the client parses per chunk, with no buffering or
reassembly.  When the control socket delivers exactly one complete well-formed
reply per chunk — single or multi-line, its text not ending in whitespace
beyond the final CRLF — the emitted responses are exactly those replies in
order: the code is the leading 3-digit integer and the message is the full
reply text with the terminating CRLF trimmed.  Arbitrary repartitionings are
not supported (see the counterexample). -/
theorem c1_one_reply_per_chunk (rs : List Reply) (h : ∀ r ∈ rs, replyWF r = true) :
    emitResponses (rs.map renderReply) = rs.map replyPayload := by
  rw [emitResponses, List.map_map]
  refine List.map_congr_left ?_
  intro r hr
  exact chunk_roundtrip r (h r hr)

/-- Witness for C1 on a single-line greeting and the spec's multi-line FEAT
reply. -/
theorem c1_one_reply_per_chunk_witness :
    (∀ r ∈ [({ code := 220, rest := (" Service ready").data } : Reply),
        { code := 211, rest := ("-Features:" ++ "\r\n" ++ " UTF8" ++ "\r\n" ++ "211 End").data }],
      replyWF r = true) ∧
    emitResponses ([({ code := 220, rest := (" Service ready").data } : Reply),
        { code := 211, rest := ("-Features:" ++ "\r\n" ++ " UTF8" ++ "\r\n" ++ "211 End").data }].map
        renderReply)
      = [({ code := 220, rest := (" Service ready").data } : Reply),
        { code := 211, rest := ("-Features:" ++ "\r\n" ++ " UTF8" ++ "\r\n" ++ "211 End").data }].map
        replyPayload :=
  ⟨by decide, c1_one_reply_per_chunk _ (by decide)⟩

/-- Claim C2 counterexample: dispatching a second `handle` while the first
task is pending does not fail with Busy — nothing settles at that point — and
the new handler and task silently replace the first.  The first task is then
bypassed, not left undisturbed: the next reply settles task 1, not task 0. -/
theorem c2_busy_counterexample :
    (run none [Ev.handle none connectHandler, Ev.handle none connectHandler]).results = [] ∧
    (run none [Ev.handle none connectHandler, Ev.handle none connectHandler]).task
      = some { id := 1, settled := false } ∧
    (run none [Ev.handle none connectHandler, Ev.handle none connectHandler,
        Ev.ctrlData (("220 ok" ++ "\r\n").data)]).results = [(1, .ok .unit)] := by
  decide

/-- Claim C2 (amended): `handle` performs no pending-task check.  A second
dispatch replaces the handler and the current task without any Busy rejection
(no promise settles at dispatch time), and the replaced first task is
orphaned: whatever happens afterwards, the context never settles promise 0. -/
theorem c2_second_handle_replaces (tm : Option Nat) (c1 c2 : Option (List Char))
    (h1 h2 : Handler) (rest : List Ev) :
    (run tm [Ev.handle c1 h1, Ev.handle c2 h2]).results = [] ∧
    (run tm [Ev.handle c1 h1, Ev.handle c2 h2]).task = some { id := 1, settled := false } ∧
    (run tm [Ev.handle c1 h1, Ev.handle c2 h2]).handler.isSome = true ∧
    0 ∉ resultIds ((Ev.handle c1 h1 :: Ev.handle c2 h2 :: rest).foldl step (initSt tm)) := by
  have horph : 0 ∉ resultIds
      (rest.foldl step (step (step (initSt tm) (Ev.handle c1 h1)) (Ev.handle c2 h2))) := by
    refine orphan_foldl rest _ ?_ ?_ ?_
    · cases c1 <;> cases c2 <;> exact Nat.le_succ 1
    · cases c1 <;> cases c2
      all_goals
        intro t ht
        have ht2 : some ({ id := 1, settled := false } : TaskRec) = some t := ht
        injection ht2 with ht2
        rw [← ht2]
    · cases c1 <;> cases c2 <;> exact List.not_mem_nil 0
  refine ⟨?_, ?_, ?_, ?_⟩
  · cases c1 <;> cases c2 <;> rfl
  · cases c1 <;> cases c2 <;> rfl
  · cases c1 <;> cases c2 <;> rfl
  · show 0 ∉ resultIds
      (rest.foldl step (step (step (initSt tm) (Ev.handle c1 h1)) (Ev.handle c2 h2)))
    exact horph

/-- Claim C3 counterexample: with a task pending, `close()` rejects nothing —
the task stays pending, so it is not terminated with a Closed error; a second
`close()` issues `destroy()` on the control socket a second time; and an
operation dispatched after `close()` is not rejected with Closed — here it is
rejected with the transport error a destroyed socket produces on write. -/
theorem c3_close_counterexample :
    (run none [Ev.handle none connectHandler, Ev.close]).results = [] ∧
    (run none [Ev.handle none connectHandler, Ev.close]).task
      = some { id := 0, settled := false } ∧
    (run none [Ev.close, Ev.close]).ctrlDestroy = 2 ∧
    (run none [Ev.close, Ev.handle (some (("NOOP").data)) (sendHandler false),
        Ev.ctrlError (("write after destroy").data)]).results
      = [(0, .err (.payload
          { code := none, message := none,
            error := some (.transport (("write after destroy").data)) }))] ∧
    Outcome.err RErr.closed ∉
      (run none [Ev.close, Ev.handle (some (("NOOP").data)) (sendHandler false),
        Ev.ctrlError (("write after destroy").data)]).results.map Prod.snd := by
  decide

/-- Claim C3 (amended): `close()` logs and calls `destroy()` on each socket
that exists, every time it is called — a second call issues `destroy()` again
(harmless only because destroying an already-destroyed Node socket is a
no-op).  It never touches the task or the handler: a pending task stays
pending rather than being rejected with Closed, and the settled promises are
unchanged; later operations are dispatched normally, not rejected with
Closed. -/
theorem c3_close_effects (tm : Option Nat) (evs : List Ev) :
    (step (run tm evs) .close).task = (run tm evs).task ∧
    (step (run tm evs) .close).handler = (run tm evs).handler ∧
    (step (run tm evs) .close).results = (run tm evs).results ∧
    (step (run tm evs) .close).ctrlDestroy = (run tm evs).ctrlDestroy + 1 ∧
    (step (step (run tm evs) .close) .close).ctrlDestroy = (run tm evs).ctrlDestroy + 2 :=
  ⟨rfl, rfl, rfl, rfl, rfl⟩

/-- Claim C4: in every reachable state a handler is installed iff a task is
pending; settled promise ids never repeat, so each task is resolved or
rejected at most once; and once the handler has been detached by
resolve/reject, a socket signal (data, error or timeout) is dropped: it
settles nothing and installs no handler. -/
theorem c4_handler_task_discipline (tm : Option Nat) (evs : List Ev) (e : Ev)
    (hsig : isSignal e = true) :
    ((run tm evs).handler.isSome = taskPendingB (run tm evs)) ∧
    (resultIds (run tm evs)).Nodup ∧
    ((run tm evs).handler = none →
      (step (run tm evs) e).results = (run tm evs).results ∧
      (step (run tm evs) e).handler = none) := by
  obtain ⟨h1, h2, -, -, -⟩ := ctxInv_run tm evs
  refine ⟨h1, h2, ?_⟩
  intro hnone
  cases e with
  | handle cmd h => cases hsig
  | close => cases hsig
  | setDataSocket => cases hsig
  | ctrlData chunk =>
    have hid := respond_no_handler
      { (run tm evs) with logged := (run tm evs).logged ++ ['<' :: ' ' :: jsTrim chunk] }
      (chunkToPayload chunk) hnone
    constructor
    · show (respond
        { (run tm evs) with logged := (run tm evs).logged ++ ['<' :: ' ' :: jsTrim chunk] }
        (chunkToPayload chunk)).results = (run tm evs).results
      rw [hid]
    · show (respond
        { (run tm evs) with logged := (run tm evs).logged ++ ['<' :: ' ' :: jsTrim chunk] }
        (chunkToPayload chunk)).handler = none
      rw [hid]
      exact hnone
  | ctrlError m =>
    have hid := respond_no_handler (run tm evs) { error := some (.transport m) } hnone
    constructor
    · show (respond (run tm evs) { error := some (.transport m) }).results = (run tm evs).results
      rw [hid]
    · show (respond (run tm evs) { error := some (.transport m) }).handler = none
      rw [hid]
      exact hnone
  | ctrlTimeout =>
    have hid := respond_no_handler (run tm evs) { error := some .timeout } hnone
    constructor
    · show (respond (run tm evs) { error := some .timeout }).results = (run tm evs).results
      rw [hid]
    · show (respond (run tm evs) { error := some .timeout }).handler = none
      rw [hid]
      exact hnone
  | dataError m =>
    show ((if (run tm evs).hasData then respond (run tm evs) { error := some (.transport m) }
        else (run tm evs)).results = (run tm evs).results) ∧
      ((if (run tm evs).hasData then respond (run tm evs) { error := some (.transport m) }
        else (run tm evs)).handler = none)
    by_cases hd : (run tm evs).hasData
    · rw [if_pos hd, respond_no_handler (run tm evs) _ hnone]
      exact ⟨rfl, hnone⟩
    · rw [if_neg hd]
      exact ⟨rfl, hnone⟩
  | dataTimeout =>
    show ((if (run tm evs).hasData then respond (run tm evs) { error := some .timeout }
        else (run tm evs)).results = (run tm evs).results) ∧
      ((if (run tm evs).hasData then respond (run tm evs) { error := some .timeout }
        else (run tm evs)).handler = none)
    by_cases hd : (run tm evs).hasData
    · rw [if_pos hd, respond_no_handler (run tm evs) _ hnone]
      exact ⟨rfl, hnone⟩
    · rw [if_neg hd]
      exact ⟨rfl, hnone⟩

/-- Witness for C4: after a resolved `connect` task the handler is detached
and a further 500 reply is dropped. -/
theorem c4_handler_task_discipline_witness :
    ((run none [Ev.handle none connectHandler,
        Ev.ctrlData (("220 ok" ++ "\r\n").data)]).handler.isSome
      = taskPendingB (run none [Ev.handle none connectHandler,
        Ev.ctrlData (("220 ok" ++ "\r\n").data)])) ∧
    (resultIds (run none [Ev.handle none connectHandler,
        Ev.ctrlData (("220 ok" ++ "\r\n").data)])).Nodup ∧
    (step (run none [Ev.handle none connectHandler, Ev.ctrlData (("220 ok" ++ "\r\n").data)])
        (Ev.ctrlData (("500 no" ++ "\r\n").data))).results
      = (run none [Ev.handle none connectHandler,
        Ev.ctrlData (("220 ok" ++ "\r\n").data)]).results := by
  obtain ⟨h1, h2, h3⟩ := c4_handler_task_discipline none
    [Ev.handle none connectHandler, Ev.ctrlData (("220 ok" ++ "\r\n").data)]
    (Ev.ctrlData (("500 no" ++ "\r\n").data)) rfl
  exact ⟨h1, h2, (h3 rfl).1⟩

/-- Claim C5 counterexample: for the password `###` the string consisting of
`PASS` plus a space followed by that password does appear in the log line
`Client.send` emits for its PASS command, so the claim's universal statement
fails at this password (the redacted line itself is that string). -/
theorem c5_redaction_counterexample :
    containsSub (sendLog (("PASS ###").data)) (("PASS ###").data) = true := by
  decide

/-- Claim C5 (amended): the log line `Client.send` emits for a PASS command is
the constant `> PASS ###` whatever the password, so the log output is
independent of the password value; consequently the text `PASS ` followed by
the password appears in that line exactly when the password is a prefix of
`###` (which covers the counterexample) and never otherwise. -/
theorem c5_pass_redaction (p : List Char) :
    sendLog (("PASS ").data ++ p) = redactedLit ∧
    containsSub redactedLit (("PASS ").data ++ p) = startsWith' (("###").data) p := by
  constructor
  · rfl
  · show (startsWith' (("###").data) p || false) = startsWith' (("###").data) p
    exact Bool.or_false _

/-- Claim C6 counterexample: a timeout does not close the context.  After a
timeout rejects the first task, a second `send` dispatch succeeds normally
(resolving with code 200) rather than failing with Closed, and no Closed
rejection ever appears. -/
theorem c6_not_closed_counterexample :
    (run none [Ev.handle (some (("NOOP").data)) (sendHandler false), Ev.ctrlTimeout,
        Ev.handle (some (("NOOP").data)) (sendHandler false),
        Ev.ctrlData (("200 ok" ++ "\r\n").data)]).results
      = [(0, .err (.payload timeoutPayload)), (1, .ok (.codeV (some 200)))] ∧
    Outcome.err RErr.closed ∉
      (run none [Ev.handle (some (("NOOP").data)) (sendHandler false), Ev.ctrlTimeout,
        Ev.handle (some (("NOOP").data)) (sendHandler false),
        Ev.ctrlData (("200 ok" ++ "\r\n").data)]).results.map Prod.snd := by
  decide

/-- Claim C6 (amended): a timeout event on either socket delivers the payload
`{ error: Timeout }` to the current handler, and the standard `send` handler
rejects the pending task with that payload and detaches itself.  The context
does not transition to any closed state — there is none — so subsequent
operations do not fail with Closed (see the counterexample). -/
theorem c6_timeout_rejects (tm : Option Nat) (evs : List Ev) (ig : Bool) (t : TaskRec)
    (hh : (run tm evs).handler = some (sendHandler ig))
    (ht : (run tm evs).task = some t) :
    (step (run tm evs) .ctrlTimeout).results
        = (run tm evs).results ++ [(t.id, .err (.payload timeoutPayload))] ∧
    (step (run tm evs) .ctrlTimeout).handler = none ∧
    ((run tm evs).hasData = true →
      (step (run tm evs) .dataTimeout).results
        = (run tm evs).results ++ [(t.id, .err (.payload timeoutPayload))]) := by
  have hdec : sendHandler ig timeoutPayload = .reject (.payload timeoutPayload) := rfl
  obtain ⟨-, hrej⟩ := respond_settles (run tm evs) (sendHandler ig) timeoutPayload t hh ht
  obtain ⟨hres, hhand⟩ := hrej (.payload timeoutPayload) hdec
  refine ⟨hres, hhand, ?_⟩
  intro hd
  show (if (run tm evs).hasData then respond (run tm evs) { error := some .timeout }
      else (run tm evs)).results = _
  rw [if_pos hd]
  exact hres

/-- Witness for C6: with a `send` task pending and a data socket installed, a
timeout on either socket rejects the task with the Timeout payload. -/
theorem c6_timeout_rejects_witness :
    (step (run none [Ev.setDataSocket, Ev.handle (some (("NOOP").data)) (sendHandler false)])
        .ctrlTimeout).results = [(0, .err (.payload timeoutPayload))] ∧
    (step (run none [Ev.setDataSocket, Ev.handle (some (("NOOP").data)) (sendHandler false)])
        .dataTimeout).results = [(0, .err (.payload timeoutPayload))] := by
  obtain ⟨h1, -, h3⟩ := c6_timeout_rejects none
    [Ev.setDataSocket, Ev.handle (some (("NOOP").data)) (sendHandler false)] false
    { id := 0, settled := false } rfl rfl
  exact ⟨h1, h3 rfl⟩

/-- Claim C8 counterexample: on the greeting `220 Service ready` the `connect`
handler resolves the task with no value — the promise carries `undefined`
(consistent with the JSDoc `Promise of void`), not the FTPResponse the claim
requires. -/
theorem c8_connect_counterexample :
    (run none [Ev.handle none connectHandler,
        Ev.ctrlData (("220 Service ready" ++ "\r\n").data)]).results = [(0, .ok .unit)] ∧
    Outcome.ok RVal.unit ≠ Outcome.ok (.respV
      { code := some 220, message := some (("220 Service ready").data), error := none }) := by
  decide

/-- Claim C8 (amended): when the first reply has code 220, `connect` resolves
with no value (undefined); when it has any other code, the task is rejected
with that response payload. -/
theorem c8_connect_result (tm : Option Nat) (evs : List Ev) (t : TaskRec) (chunk : List Char)
    (hh : (run tm evs).handler = some connectHandler)
    (ht : (run tm evs).task = some t) :
    ((chunkToPayload chunk).code = some 220 →
      (step (run tm evs) (.ctrlData chunk)).results
        = (run tm evs).results ++ [(t.id, .ok .unit)]) ∧
    ((chunkToPayload chunk).code ≠ some 220 →
      (step (run tm evs) (.ctrlData chunk)).results
        = (run tm evs).results ++ [(t.id, .err (.payload (chunkToPayload chunk)))]) := by
  obtain ⟨hres, hrej⟩ := respond_settles
    { (run tm evs) with logged := (run tm evs).logged ++ ['<' :: ' ' :: jsTrim chunk] }
    connectHandler (chunkToPayload chunk) t hh ht
  constructor
  · intro h220
    have hdec : connectHandler (chunkToPayload chunk) = .resolve .unit := by
      show (if (chunkToPayload chunk).code = some 220 then Decision.resolve RVal.unit
        else Decision.reject (.payload (chunkToPayload chunk))) = Decision.resolve RVal.unit
      rw [if_pos h220]
    exact (hres .unit hdec).1
  · intro hne
    have hdec : connectHandler (chunkToPayload chunk)
        = .reject (.payload (chunkToPayload chunk)) := by
      show (if (chunkToPayload chunk).code = some 220 then Decision.resolve RVal.unit
        else Decision.reject (.payload (chunkToPayload chunk)))
          = Decision.reject (.payload (chunkToPayload chunk))
      rw [if_neg hne]
    exact (hrej _ hdec).1

/-- Witness for C8 at the spec's greeting scenario. -/
theorem c8_connect_result_witness :
    (step (run none [Ev.handle none connectHandler])
        (.ctrlData (("220 Service ready" ++ "\r\n").data))).results = [(0, .ok .unit)] := by
  obtain ⟨h220, -⟩ := c8_connect_result none [Ev.handle none connectHandler]
    { id := 0, settled := false } (("220 Service ready" ++ "\r\n").data) rfl rfl
  exact h220 (by decide)

/-- Claim C9 counterexample: a client constructed without a timeout argument
gets `timeoutMillis = 0` — the constructor default parameter is 0, meaning no
timeout — not the claimed default of 30000 milliseconds. -/
theorem c9_default_timeout_counterexample :
    (initSt none).timeoutMillis = 0 ∧ ¬ (initSt none).timeoutMillis = 30000 := by
  decide

/-- Claim C9 (amended): the default timeout is 0 (no timeout), not 30000; the
configured value, whatever it is, is applied uniformly — `setTimeout` with it
runs on the control socket at construction and on every data socket when one
is installed. -/
theorem c9_timeout_uniform (tm : Option Nat) (evs : List Ev) :
    (run tm evs).timeoutMillis = tm.getD 0 ∧
    (run tm evs).ctrlTimeoutSet = some ((run tm evs).timeoutMillis) ∧
    ((run tm evs).hasData = true →
      (run tm evs).dataTimeoutSet = some ((run tm evs).timeoutMillis)) ∧
    (initSt none).timeoutMillis = 0 := by
  obtain ⟨h1, h2, h3⟩ := tmInv_run tm evs
  refine ⟨h1, ?_, ?_, rfl⟩
  · rw [h1]; exact h2
  · rw [h1]; exact h3

/-- Witness for C9: a client built with 5000 ms applies 5000 to both
sockets. -/
theorem c9_timeout_uniform_witness :
    (run (some 5000) [Ev.setDataSocket]).timeoutMillis = 5000 ∧
    (run (some 5000) [Ev.setDataSocket]).ctrlTimeoutSet = some 5000 ∧
    (run (some 5000) [Ev.setDataSocket]).dataTimeoutSet = some 5000 := by
  obtain ⟨h1, h2, h3, -⟩ := c9_timeout_uniform (some 5000) [Ev.setDataSocket]
  exact ⟨h1, h2.trans (congrArg some h1), (h3 (by decide)).trans (congrArg some h1)⟩

/-- Witness for C10 at a hostile 227 message with negative and oversized
groups: the port still lands in range. -/
theorem c10_port_in_range_witness :
    parseIPV4PasvResponse (("227 (-1,2,3,4,-999999,70000)").data)
      = some (("-1.2.3.4").data, 49520) ∧ 49520 ≤ 65535 :=
  ⟨by decide,
    c10_port_in_range (("227 (-1,2,3,4,-999999,70000)").data) (("-1.2.3.4").data) 49520
      (by decide)⟩

end BasicFtp
